import Mathlib

/-!
Shallow embedding of the sloppenhimer video pipeline core
(caption timing model, segmentation engine, karaoke schedule builder,
background alignment, SRT export, LLM simplify fallback, and the
pipeline orchestrator), together with theorems settling the spec claims.

Python floats are modelled as exact rationals; Python ints as Int/Nat.
-/

namespace Sloppenhimer

/-! ## Python string primitives

Character-list models of the Python `str` methods the source uses
(`rstrip`, `strip`, `lower`, `startswith`, `endswith`, `split`).  These
are the semantics of the Python operations, defined structurally so that
concrete evaluations reduce. -/

/-- Python `str.rstrip()`: drop trailing whitespace. -/
def pyRstrip (s : String) : String :=
  ⟨(s.data.reverse.dropWhile Char.isWhitespace).reverse⟩

/-- Python `str.lstrip()`: drop leading whitespace. -/
def pyLstrip (s : String) : String :=
  ⟨s.data.dropWhile Char.isWhitespace⟩

/-- Python `str.strip()`: drop leading and trailing whitespace. -/
def pyStrip (s : String) : String := pyLstrip (pyRstrip s)

/-- Python `s.endswith(t)`. -/
def pyEndsWith (s t : String) : Bool := t.data.isSuffixOf s.data

/-- Python `s.startswith(t)`. -/
def pyStartsWith (s t : String) : Bool := t.data.isPrefixOf s.data

/-- Python `str.lower()` (ASCII case fold suffices for the prefix list
of the source). -/
def pyLower (s : String) : String := ⟨s.data.map Char.toLower⟩

/-! ## Timing model, from src/src/models/caption.py -/

/-- `WordTiming` from caption.py: word text plus start/end times and
confidence.  The pydantic model declares plain `Field`s with no value
validators or bounds. -/
structure WordTiming where
  word : String
  start_time : ℚ
  end_time : ℚ
  confidence : ℚ := 1
deriving Repr, DecidableEq

/-- Construction of a `WordTiming` from a raw tuple.  The source model has
no validators and no `ge`/`le` constraints on any field, so pydantic
performs only type coercion and construction always succeeds; this is
modelled as always returning `Except.ok`. -/
def WordTiming.construct (w : String) (s e c : ℚ) : Except String WordTiming :=
  .ok { word := w, start_time := s, end_time := e, confidence := c }

/-- `WordTiming.duration` property. -/
def WordTiming.durationOf (w : WordTiming) : ℚ := w.end_time - w.start_time

/-- `CaptionSegment` from caption.py. -/
structure CaptionSegment where
  words : List WordTiming
  start_time : ℚ
  end_time : ℚ
deriving Repr, DecidableEq

/-- `CaptionSegment.text` property: words joined by single spaces. -/
def CaptionSegment.text (s : CaptionSegment) : String :=
  " ".intercalate (s.words.map (·.word))

/-- `Transcript` from caption.py. -/
structure Transcript where
  words : List WordTiming
  duration : ℚ
  language : String := "en"
deriving Repr, DecidableEq

/-- Building a `CaptionSegment` from a word group, as both segmentation
loops do: `start_time = group[0].start_time`, `end_time = group[-1].end_time`.
Groups produced by the loops are always non-empty, so the `getD 0`
defaults are never exercised. -/
def mkSegment (g : List WordTiming) : CaptionSegment :=
  { words := g
    start_time := ((g.head?).map (·.start_time)).getD 0
    end_time := ((g.getLast?).map (·.end_time)).getD 0 }

/-- The fixed-size grouping loop of `Transcript.get_segments`:
`for i in range(0, len(words), n): group = words[i:i+n]`.
For `n ≥ 1` the head group is `take n` and the recursion continues on
`drop n`.  (Python raises `ValueError` on `n = 0`; the claims only
concern `n > 0`.) -/
def groupFixed (n : Nat) : List WordTiming → List (List WordTiming)
  | [] => []
  | w :: ws => (w :: ws.take (n - 1)) :: groupFixed n (ws.drop (n - 1))
termination_by l => l.length
decreasing_by simp [List.length_drop]; omega

/-- `Transcript.get_segments`: fixed-size grouping (default 4).  The
filter `if group:` in the source is a no-op since every emitted group is
non-empty. -/
def Transcript.get_segments (t : Transcript) (words_per_segment : Nat := 4) :
    List CaptionSegment :=
  (groupFixed words_per_segment t.words).map mkSegment

/-- The duplicated fixed-size grouping loop inside
`Transcript.get_segments_v2` (the source repeats the loop of
`get_segments` verbatim). -/
def groupFixedV2 (n : Nat) : List WordTiming → List (List WordTiming)
  | [] => []
  | w :: ws => (w :: ws.take (n - 1)) :: groupFixedV2 n (ws.drop (n - 1))
termination_by l => l.length
decreasing_by simp [List.length_drop]; omega

/-- The terminator test of `get_segments_v2`:
`word.word.rstrip().endswith((".", "?", "!",","))` — note the comma. -/
def isTerminalV2 (s : String) : Bool :=
  pyEndsWith (pyRstrip s) "." || pyEndsWith (pyRstrip s) "?" ||
    pyEndsWith (pyRstrip s) "!" || pyEndsWith (pyRstrip s) ","

/-- The terminator test of `get_sentence_segments`:
`word.word.rstrip().endswith((".", "?", "!"))` — no comma. -/
def isSentenceTerminal (s : String) : Bool :=
  pyEndsWith (pyRstrip s) "." || pyEndsWith (pyRstrip s) "?" ||
    pyEndsWith (pyRstrip s) "!"

/-- The sentence-accumulation loop shared (textually duplicated) by
`get_segments_v2` and `get_sentence_segments`: append each word to the
running buffer, close the buffer when the word passes the terminator
test, and flush a non-empty trailing buffer at end of input. -/
def sentenceLoop (isTerm : String → Bool) (current : List WordTiming) :
    List WordTiming → List (List WordTiming)
  | [] => if current.isEmpty then [] else [current]
  | w :: ws =>
    let current' := current ++ [w]
    if isTerm w.word then current' :: sentenceLoop isTerm [] ws
    else sentenceLoop isTerm current' ws

/-- Python truthiness of the `words_per_segment: int = None` parameter:
`None` and `0` are falsy, positive ints truthy. -/
def optTruthy : Option Nat → Bool
  | none => false
  | some n => n != 0

/-- `Transcript.get_segments_v2`: legacy fixed-size grouping when
`words_per_segment` is truthy, otherwise sentence-aware grouping with
the comma included among the closing marks. -/
def Transcript.get_segments_v2 (t : Transcript)
    (words_per_segment : Option Nat := none) : List CaptionSegment :=
  if optTruthy words_per_segment then
    (groupFixedV2 (words_per_segment.getD 0) t.words).map mkSegment
  else
    (sentenceLoop isTerminalV2 [] t.words).map mkSegment

/-- `Transcript.get_sentence_segments`: sentence-aware grouping closing
only on `.`, `?`, `!`. -/
def Transcript.get_sentence_segments (t : Transcript) : List CaptionSegment :=
  (sentenceLoop isSentenceTerminal [] t.words).map mkSegment

/-! ## SRT export, from `Transcript.to_srt` and `_format_srt_time` -/

/-- Python float `%` with a positive modulus: `a - b * floor(a / b)`,
yielding a value in `[0, b)`. -/
def qmod (a b : ℚ) : ℚ := a - b * ⌊a / b⌋

/-- `hours = int(seconds // 3600)`: Python `//` floors, so the outer
`int` truncation coincides with the floor. -/
def srtHours (s : ℚ) : ℤ := ⌊s / 3600⌋

/-- `minutes = int((seconds % 3600) // 60)`. -/
def srtMinutes (s : ℚ) : ℤ := ⌊qmod s 3600 / 60⌋

/-- `secs = int(seconds % 60)`: the mod result lies in `[0, 60)`, so
`int` truncation coincides with the floor. -/
def srtSecs (s : ℚ) : ℤ := ⌊qmod s 60⌋

/-- `millis = int((seconds % 1) * 1000)`: the argument lies in
`[0, 1000)`, so truncation is flooring. -/
def srtMillis (s : ℚ) : ℤ := ⌊qmod s 1 * 1000⌋

/-- Zero padding of a natural to a minimum width, as in `f"{n:02d}"`. -/
def zeroPadNat (w : Nat) (n : Nat) : String :=
  let s := toString n
  ⟨List.replicate (w - s.length) '0'⟩ ++ s

/-- Python `f"{n:0wd}"` on an int: the sign counts toward the width and
zeros pad after the sign. -/
def zeroPadInt (w : Nat) (n : ℤ) : String :=
  if n < 0 then "-" ++ zeroPadNat (w - 1) n.natAbs else zeroPadNat w n.toNat

/-- `_format_srt_time`: `HH:MM:SS,mmm`. -/
def formatSrtTime (s : ℚ) : String :=
  zeroPadInt 2 (srtHours s) ++ ":" ++ zeroPadInt 2 (srtMinutes s) ++ ":" ++
    zeroPadInt 2 (srtSecs s) ++ "," ++ zeroPadInt 3 (srtMillis s)

/-- Re-parsing a formatted timestamp back into seconds:
`hours*3600 + minutes*60 + secs + millis/1000`, the reading the claimed
SRT round trip performs on the four formatted components. -/
def srtRecover (s : ℚ) : ℚ :=
  srtHours s * 3600 + srtMinutes s * 60 + srtSecs s + (srtMillis s : ℚ) / 1000

/-- One loop iteration of `Transcript.to_srt`: the four lines appended
for an indexed segment — the index, the `start --> end` timestamp line,
the segment text, and the blank separator line. -/
def srtBlock (p : ℕ × CaptionSegment) : List String :=
  [toString p.1,
   formatSrtTime p.2.start_time ++ " --> " ++ formatSrtTime p.2.end_time,
   p.2.text,
   ""]

/-- The `lines` list built by `Transcript.to_srt`: for each fixed-size
segment (default group size 4), a block of index (1-based), timestamp
line, text, and a blank separator line. -/
def toSrtLines (t : Transcript) : List String :=
  (t.get_segments.enumFrom 1).flatMap srtBlock

/-- `Transcript.to_srt`: the lines joined by newlines. -/
def Transcript.to_srt (t : Transcript) : String := "\n".intercalate (toSrtLines t)

/-! ## Karaoke schedule builder, from src/src/video/captions.py -/

/-- Caption settings from config/settings.py (defaults). -/
structure CaptionSettings where
  font_size : ℕ := 60
  color : String := "white"
  highlight_color : String := "yellow"
  words_per_group : ℕ := 4
deriving Repr, DecidableEq

def defaultCaptionSettings : CaptionSettings := {}

/-- One `TextClip` emitted by `_create_simple_karaoke`: the displayed
text, its color, and its `[with_start, with_end]` interval.  (Font,
stroke, and screen position are rendering attributes with no timing
content and are not modelled.) -/
structure KaraokeClip where
  text : String
  color : String
  start_time : ℚ
  end_time : ℚ
deriving Repr, DecidableEq

/-- Split a character list at spaces (accumulator holds the current
word reversed). -/
def splitOnSpaceAux : List Char → List Char → List (List Char)
  | [], cur => [cur.reverse]
  | c :: cs, cur =>
    if c = ' ' then cur.reverse :: splitOnSpaceAux cs [] else splitOnSpaceAux cs (c :: cur)

/-- The word split performed by `textwrap` on space-joined text: split
at whitespace, dropping empty chunks. -/
def pySplitWords (s : String) : List String :=
  ((splitOnSpaceAux s.data []).filter (fun w => !w.isEmpty)).map String.mk

/-- Greedy line packing of `textwrap.TextWrapper` with
`break_long_words=False, break_on_hyphens=False`: extend the current
line while it fits in `width`, else start a new line; an over-long word
occupies a line by itself. -/
def packLines (width : ℕ) (line : String) : List String → List String
  | [] => [line]
  | w :: ws =>
    if line.length + 1 + w.length ≤ width then packLines width (line ++ " " ++ w) ws
    else line :: packLines width w ws

/-- `textwrap.wrap` on the word list: empty input gives no lines. -/
def wrapWords (width : ℕ) : List String → List String
  | [] => []
  | w :: ws => packLines width w ws

/-- `KaraokeCaptions._wrap_text_properly`: wrap then join with
newlines. -/
def wrapTextProperly (text : String) (maxWidth : ℕ) : String :=
  "\n".intercalate (wrapWords maxWidth (pySplitWords text))

/-- The `padded_text` computed once per segment in
`_create_simple_karaoke`: the space-joined segment words, wrapped to
`(width - 80) // (font_size // 2)` characters, padded with a leading and
trailing newline. -/
def paddedSegmentText (cfg : CaptionSettings) (width : ℕ) (seg : CaptionSegment) : String :=
  let full_text := " ".intercalate (seg.words.map (·.word))
  let approxCharsPerLine := (width - 80) / (cfg.font_size / 2)
  "\n" ++ wrapTextProperly full_text approxCharsPerLine ++ "\n"

/-- `KaraokeCaptions._create_simple_karaoke`: one clip per word, each
showing the same padded segment text in the base caption color, timed
`[word.start_time, word.end_time]`. -/
def createSimpleKaraoke (cfg : CaptionSettings) (width : ℕ) (seg : CaptionSegment) :
    List KaraokeClip :=
  seg.words.map fun w =>
    { text := paddedSegmentText cfg width seg
      color := cfg.color
      start_time := w.start_time
      end_time := w.end_time }

/-- `KaraokeCaptions.generate_captions`: segments come from
`get_segments_v2()` with its default `None` argument. -/
def generateCaptions (cfg : CaptionSettings) (width : ℕ) (t : Transcript) :
    List KaraokeClip :=
  (t.get_segments_v2 none).flatMap (createSimpleKaraoke cfg width)

/-! ## Background preparation, from `VideoEditor.prepare_background` -/

/-- Duration of `clip.subclipped(0, d)` taken from a clip of length
`L`. -/
def subclipDuration (L d : ℚ) : ℚ := min d L

/-- The duration logic of `prepare_background`: returns the number of
loop copies (`0` when no `.looped(...)` call happens) and the prepared
duration.  The loop branch computes
`loops_needed = int(duration / clip.duration) + 1` — a floor plus one,
not a ceiling. -/
def prepareBackground (source target : ℚ) (loop : Bool) : ℤ × ℚ :=
  if source ≥ target then (0, subclipDuration source target)
  else if loop then
    let loops_needed : ℤ := ⌊target / source⌋ + 1
    (loops_needed, subclipDuration (loops_needed * source) target)
  else (0, source)

/-! ## Story model and LLM simplify, from src/src/models/story.py and
src/src/processors/llm.py -/

/-- `StoryStatus` enum. -/
inductive StoryStatus where
  | scraped
  | simplified
  | tts_generated
  | transcribed
  | assembled
  | failed
deriving Repr, DecidableEq

/-- `RedditStory` (the `created_utc` datetime field carries no behavior
relevant here and is kept as its ISO string form). -/
structure RedditStory where
  id : String
  subreddit : String
  title : String
  body : String
  author : String
  score : ℤ
  url : String
  created_utc : String
  num_comments : ℤ := 0
deriving Repr, DecidableEq

/-- `ProcessedStory` (the `processed_at` timestamp is not modelled). -/
structure ProcessedStory where
  original : RedditStory
  simplified_text : String
  status : StoryStatus := .simplified
  audio_path : Option String := none
  transcript_path : Option String := none
  output_video_path : Option String := none
  error_message : Option String := none
deriving Repr, DecidableEq

/-- `LLMProcessor._clean_response`: strip known prefixes
(case-insensitively), unwrap a fully quoted response, strip
whitespace. -/
def cleanResponse (text : String) : String :=
  let ps := ["Here\x27s the rewritten story:", "Here is the rewritten story:",
    "REWRITTEN STORY:", "Rewritten story:", "REWRITTEN:"]
  let text := ps.foldl
    (fun t p => if pyStartsWith (pyLower t) (pyLower p) then pyStrip (t.drop p.length) else t)
    text
  let text :=
    if pyStartsWith text "\"" && pyEndsWith text "\"" then (text.drop 1).dropRight 1 else text
  pyStrip text

/-- One attempt of the `simplify_story` retry loop, given the outcome of
the `ollama.generate` call (`Except.error` models a raised exception):
strip the response, treat an empty result as the raised
`ValueError("Empty response from LLM")`, and clean a non-empty one. -/
def attemptOutcome : Except String String → Except String String
  | .error e => .error e
  | .ok resp =>
    let simplified := pyStrip resp
    if simplified = "" then .error "Empty response from LLM"
    else .ok (cleanResponse simplified)

/-- The `for attempt in range(max_retries + 1)` loop of
`simplify_story`, over the list of generate-call outcomes for the
successive attempts.  A success returns the simplified story; a failure
on the last attempt returns the original body with status `SIMPLIFIED`
and an error note; the empty list corresponds to the unreachable
fall-through returning status `FAILED`. -/
def simplifyLoop (story : RedditStory) : List (Except String String) → ProcessedStory
  | [] => { original := story, simplified_text := story.body, status := .failed }
  | o :: rest =>
    match attemptOutcome o with
    | .ok simplified =>
      { original := story, simplified_text := simplified, status := .simplified }
    | .error e =>
      match rest with
      | [] =>
        { original := story, simplified_text := story.body, status := .simplified
          error_message := some ("LLM failed, using original: " ++ e) }
      | _ :: _ => simplifyLoop story rest

/-- `LLMProcessor.simplify_story`: run the retry loop over attempts
`0 .. max_retries`, where `oracle i` is the outcome of the
`ollama.generate` call on attempt `i`. -/
def simplifyStory (story : RedditStory) (oracle : ℕ → Except String String)
    (maxRetries : ℕ := 2) : ProcessedStory :=
  simplifyLoop story ((List.range (maxRetries + 1)).map oracle)

/-! ## Pipeline orchestrator, from `Pipeline.process_story` in
src/src/video/assembler.py -/

/-- The external collaborators `process_story` drives, as pure
outcome-valued fields (`Except.error` models a raised exception).
`llmGenerate i` is the outcome of the `ollama.generate` call on attempt
`i` inside `simplify_story`. -/
structure PipelineEnv where
  stories : String → Option RedditStory
  llmGenerate : ℕ → Except String String
  ttsGenerate : String → String → Except String Unit
  transcribe : String → Except String Transcript
  getRandomVideo : Option String
  downloadRandom : List String
  render : Except String Unit

/-- The deterministic output locator `settings.output_dir / f"{story.original.id}.mp4"`. -/
def outputPath (storyId : String) : String := "data/output/" ++ storyId ++ ".mp4"

/-- `Pipeline.process_story`: load the story, then unconditionally run
simplify → TTS → transcribe → select background → assemble; any raised
exception is caught and yields `None`.  The second component records the
external collaborator calls made, in order.  There is no artifact-store
lookup anywhere in this function: no stage is ever skipped.
(`quick_assemble` and `assemble` differ only in caption rendering style;
both reduce to one render call here.) -/
def processStory (env : PipelineEnv) (storyId : String) : Option String × List String :=
  match env.stories storyId with
  | none => (none, [])
  | some story =>
    let processed := simplifyStory story env.llmGenerate 2
    let audioPath := "data/audio/" ++ storyId ++ ".mp3"
    match env.ttsGenerate processed.simplified_text audioPath with
    | .error _ => (none, ["simplify", "tts"])
    | .ok _ =>
      match env.transcribe audioPath with
      | .error _ => (none, ["simplify", "tts", "transcribe"])
      | .ok _transcript =>
        match env.getRandomVideo with
        | some _bg =>
          match env.render with
          | .error _ => (none, ["simplify", "tts", "transcribe", "render"])
          | .ok _ => (some (outputPath storyId), ["simplify", "tts", "transcribe", "render"])
        | none =>
          match env.downloadRandom with
          | [] => (none, ["simplify", "tts", "transcribe", "download_random"])
          | _bg :: _ =>
            match env.render with
            | .error _ =>
              (none, ["simplify", "tts", "transcribe", "download_random", "render"])
            | .ok _ =>
              (some (outputPath storyId),
               ["simplify", "tts", "transcribe", "download_random", "render"])

/-! ## Shared example data -/

/-- The spec scenario transcript
`[("Hello",0.0,0.5),("world.",0.5,1.0),("Bye.",1.0,1.3)]`. -/
def exampleTranscript : Transcript :=
  { words := [⟨"Hello", 0, 1/2, 1⟩, ⟨"world.", 1/2, 1, 1⟩, ⟨"Bye.", 1, 13/10, 1⟩]
    duration := 13/10 }

/-- A transcript whose first word ends in a comma:
`[("Hello,",0.0,0.5),("world.",0.5,1.0)]`. -/
def commaTranscript : Transcript :=
  { words := [⟨"Hello,", 0, 1/2, 1⟩, ⟨"world.", 1/2, 1, 1⟩], duration := 1 }

/-! ## Lemmas on fixed-size grouping -/

theorem mkSegment_words (g : List WordTiming) : (mkSegment g).words = g := rfl

theorem groupFixed_nil (n : ℕ) : groupFixed n [] = [] := by rw [groupFixed]

theorem groupFixed_cons (n : ℕ) (w : WordTiming) (ws : List WordTiming) :
    groupFixed n (w :: ws) =
      (w :: ws.take (n - 1)) :: groupFixed n (ws.drop (n - 1)) := by
  rw [groupFixed]

theorem groupFixed_flatten (n : ℕ) (l : List WordTiming) :
    (groupFixed n l).flatten = l := by
  induction l using groupFixed.induct n with
  | case1 => simp [groupFixed]
  | case2 w ws ih =>
    rw [groupFixed]
    simp only [List.flatten_cons, ih, List.cons_append, List.take_append_drop]

theorem groupFixed_mem (n : ℕ) (hn : 0 < n) (l : List WordTiming) :
    ∀ g ∈ groupFixed n l, g ≠ [] ∧ g.length ≤ n := by
  induction l using groupFixed.induct n with
  | case1 => simp [groupFixed]
  | case2 w ws ih =>
    rw [groupFixed]
    intro g hg
    rcases List.mem_cons.mp hg with h | h
    · subst h
      refine ⟨by simp, ?_⟩
      simp only [List.length_cons, List.length_take]
      omega
    · exact ih g h

theorem groupFixed_eq_nil_iff (n : ℕ) (l : List WordTiming) :
    groupFixed n l = [] ↔ l = [] := by
  cases l with
  | nil => simp [groupFixed]
  | cons w ws => rw [groupFixed]; simp

theorem groupFixed_get_full (n : ℕ) (hn : 0 < n) (l : List WordTiming) :
    ∀ i g, i + 1 < (groupFixed n l).length → (groupFixed n l)[i]? = some g →
      g.length = n := by
  induction l using groupFixed.induct n with
  | case1 => intro i g hi; rw [groupFixed] at hi; simp at hi
  | case2 w ws ih =>
    intro i g hi hg
    rw [groupFixed] at hi hg
    cases i with
    | zero =>
      simp only [List.getElem?_cons_zero, Option.some.injEq] at hg
      have htail : groupFixed n (ws.drop (n - 1)) ≠ [] := by
        intro hnil
        rw [hnil] at hi
        simp at hi
      have hws : ¬ ws.length ≤ n - 1 := by
        intro hle
        exact htail ((groupFixed_eq_nil_iff n _).mpr (List.drop_eq_nil_of_le hle))
      subst hg
      simp only [List.length_cons, List.length_take]
      omega
    | succ j =>
      simp only [List.getElem?_cons_succ] at hg
      simp only [List.length_cons] at hi
      exact ih j g (by omega) hg

theorem groupFixedV2_eq_groupFixed (n : ℕ) (l : List WordTiming) :
    groupFixedV2 n l = groupFixed n l := by
  induction l using groupFixedV2.induct n with
  | case1 => rw [groupFixedV2, groupFixed]
  | case2 w ws ih => rw [groupFixedV2, groupFixed, ih]

theorem map_mkSegment_flatMap_words (gl : List (List WordTiming)) :
    (gl.map mkSegment).flatMap (·.words) = gl.flatten := by
  induction gl with
  | nil => rfl
  | cons g gs ih => simp [List.flatMap_cons, ih, mkSegment_words]

/-! ## Claim theorems: segmentation -/

/-- C6: fixed-size segmentation with group size `N > 0` partitions the
word sequence: segments concatenate in order to the original words
(hence every word appears exactly once), every segment is non-empty of
length at most `N`, and every segment except possibly the last has
length exactly `N`. -/
theorem get_segments_partitions (t : Transcript) (n : ℕ) (hn : 0 < n) :
    ((t.get_segments n).flatMap (·.words) = t.words) ∧
    (∀ s ∈ t.get_segments n, s.words ≠ [] ∧ s.words.length ≤ n) ∧
    (∀ i s, i + 1 < (t.get_segments n).length →
      (t.get_segments n)[i]? = some s → s.words.length = n) := by
  refine ⟨?_, ?_, ?_⟩
  · rw [Transcript.get_segments, map_mkSegment_flatMap_words, groupFixed_flatten]
  · intro s hs
    rw [Transcript.get_segments] at hs
    rcases List.mem_map.mp hs with ⟨g, hg, rfl⟩
    rw [mkSegment_words]
    exact groupFixed_mem n hn t.words g hg
  · intro i s hi hs
    rw [Transcript.get_segments] at hi hs
    rw [List.getElem?_map] at hs
    rcases hmm : (groupFixed n t.words)[i]? with _ | g
    · rw [hmm] at hs; simp at hs
    · rw [hmm] at hs
      have hs2 : mkSegment g = s := by simpa using hs
      have := groupFixed_get_full n hn t.words i g (by simpa using hi) hmm
      rw [← hs2, mkSegment_words, this]

/-- C6 witness: the partition properties at the example transcript with
group size 2. -/
theorem get_segments_partitions_witness :
    0 < 2 ∧
    (((exampleTranscript.get_segments 2).flatMap (·.words) = exampleTranscript.words) ∧
    (∀ s ∈ exampleTranscript.get_segments 2, s.words ≠ [] ∧ s.words.length ≤ 2) ∧
    (∀ i s, i + 1 < (exampleTranscript.get_segments 2).length →
      (exampleTranscript.get_segments 2)[i]? = some s → s.words.length = 2)) :=
  ⟨by norm_num, get_segments_partitions exampleTranscript 2 (by norm_num)⟩

/-- C10: for every transcript and positive `N`, the legacy fixed-size
path of `get_segments_v2` coincides with `get_segments` (a positive int
is truthy, and the two loops are verbatim duplicates). -/
theorem get_segments_v2_legacy_eq (t : Transcript) (n : ℕ) (hn : 0 < n) :
    t.get_segments_v2 (some n) = t.get_segments n := by
  have hne : (n != 0) = true := by simpa using Nat.pos_iff_ne_zero.mp hn
  rw [Transcript.get_segments_v2, Transcript.get_segments]
  rw [optTruthy, if_pos hne]
  rw [Option.getD_some, groupFixedV2_eq_groupFixed]

/-- C10 witness: the equivalence at the example transcript with
`N = 2`. -/
theorem get_segments_v2_legacy_eq_witness :
    exampleTranscript.get_segments_v2 (some 2) = exampleTranscript.get_segments 2 :=
  get_segments_v2_legacy_eq exampleTranscript 2 (by norm_num)

/-- C1: the sentence-aware segmentation used by caption generation
(`get_segments_v2` with its default `None` argument) yields the two
claimed segments on the example of the spec — but it also closes a segment
whenever a word ends in a comma, contradicting the claim (and the
docstring of the function itself, which names only `.`, `?`, `!`): on
`[("Hello,",0,0.5),("world.",0.5,1)]` it returns two segments where the
claim requires one, while the terminal-only `get_sentence_segments`
returns the single segment the claim describes.  A trailing partial
buffer is flushed as a final segment as claimed, and the caption
generator (`generate_captions`) does consume this comma-splitting
segmentation, emitting one clip per comma-separated segment. -/
theorem get_segments_v2_splits_on_comma :
    (exampleTranscript.get_segments_v2 none =
      [{ words := [⟨"Hello", 0, 1/2, 1⟩, ⟨"world.", 1/2, 1, 1⟩],
         start_time := 0, end_time := 1 },
       { words := [⟨"Bye.", 1, 13/10, 1⟩], start_time := 1, end_time := 13/10 }]) ∧
    (commaTranscript.get_segments_v2 none =
      [{ words := [⟨"Hello,", 0, 1/2, 1⟩], start_time := 0, end_time := 1/2 },
       { words := [⟨"world.", 1/2, 1, 1⟩], start_time := 1/2, end_time := 1 }]) ∧
    (commaTranscript.get_sentence_segments =
      [{ words := [⟨"Hello,", 0, 1/2, 1⟩, ⟨"world.", 1/2, 1, 1⟩],
         start_time := 0, end_time := 1 }]) ∧
    isTerminalV2 "Hello," = true ∧ isSentenceTerminal "Hello," = false ∧
    (Transcript.get_segments_v2 { words := [⟨"Hi", 0, 1/2, 1⟩], duration := 1/2 } none =
      [{ words := [⟨"Hi", 0, 1/2, 1⟩], start_time := 0, end_time := 1/2 }]) ∧
    (generateCaptions defaultCaptionSettings 1080 commaTranscript =
      [{ text := "\nHello,\n", color := "white", start_time := 0, end_time := 1/2 },
       { text := "\nworld.\n", color := "white", start_time := 1/2, end_time := 1 }]) :=
  ⟨rfl, rfl, rfl, rfl, rfl, rfl, rfl⟩

/-! ## Claim theorems: timing model construction -/

/-- C4 counterexample: constructing a `WordTiming` from the raw tuple
`("a", 1, 0, 2)` — with `end < start` and confidence outside `[0,1]` —
succeeds, where the claim requires a `ValidationError`. -/
theorem wordTiming_construct_no_validation_counterexample :
    WordTiming.construct "a" 1 0 2 =
      .ok { word := "a", start_time := 1, end_time := 0, confidence := 2 } ∧
    (0 : ℚ) < 1 ∧ ¬ ((2 : ℚ) ≤ 1) :=
  ⟨rfl, by norm_num, by norm_num⟩

/-- C4 amended: construction from a raw tuple never fails — the pydantic
model declares no validators and no bounds, so every tuple (including
`end < start` and out-of-range confidence) constructs successfully. -/
theorem wordTiming_construct_total (w : String) (s e c : ℚ) :
    WordTiming.construct w s e c =
      .ok { word := w, start_time := s, end_time := e, confidence := c } := rfl

/-! ## Claim theorems: background preparation -/

/-- C2 counterexample: with `source_duration = 2` and
`target_duration = 4` the code loops `int(4/2)+1 = 3` copies, while the
ceiling `ceil(4/2)` of the claim is `2`; the trimmed duration still equals the
target. -/
theorem prepareBackground_ceil_counterexample :
    prepareBackground 2 4 true = (3, 4) ∧ ⌈(4 : ℚ) / 2⌉ = 2 ∧ (3 : ℤ) ≠ 2 := by
  refine ⟨?_, by norm_num, by norm_num⟩
  norm_num [prepareBackground, subclipDuration]

/-- C2 amended: for positive source and target durations, the prepared
duration always equals the target; the trim branch (loop count `0`) is
taken exactly when `source ≥ target`; otherwise the loop count is
`floor(target/source) + 1`, which equals `ceil(target/source)` whenever
the target is not an exact integer multiple of the source (and exceeds
it by one when it is). -/
theorem prepareBackground_spec (s t : ℚ) (hs : 0 < s) (ht : 0 < t) :
    (t ≤ s → prepareBackground s t true = (0, t)) ∧
    (s < t →
      (prepareBackground s t true).1 = ⌊t / s⌋ + 1 ∧
      (¬ (∃ k : ℤ, t = (k : ℚ) * s) → (prepareBackground s t true).1 = ⌈t / s⌉)) ∧
    (prepareBackground s t true).2 = t := by
  have hsne : s ≠ 0 := ne_of_gt hs
  have hcover : t ≤ ((⌊t / s⌋ : ℚ) + 1) * s := by
    have h1 : t / s < (⌊t / s⌋ : ℚ) + 1 := Int.lt_floor_add_one (t / s)
    have h2 : t < ((⌊t / s⌋ : ℚ) + 1) * s := by
      calc t = t / s * s := by field_simp
        _ < ((⌊t / s⌋ : ℚ) + 1) * s := by
            exact mul_lt_mul_of_pos_right h1 hs
    exact le_of_lt h2
  refine ⟨?_, ?_, ?_⟩
  · intro hle
    rw [prepareBackground, if_pos hle, subclipDuration, min_eq_left hle]
  · intro hlt
    have hcond : ¬ (s ≥ t) := not_le.mpr hlt
    constructor
    · simp [prepareBackground, hcond]
    · intro hnotmul
      have hfloor : (⌊t / s⌋ : ℚ) ≠ t / s := by
        intro heq
        exact hnotmul ⟨⌊t / s⌋, by rw [heq]; field_simp⟩
      have hceil : ⌈t / s⌉ = ⌊t / s⌋ + 1 := by
        rcases lt_or_eq_of_le (Int.ceil_le_floor_add_one (t / s)) with h | h
        · exfalso
          have h1 : ⌈t / s⌉ ≤ ⌊t / s⌋ := by omega
          have h2 : t / s ≤ (⌊t / s⌋ : ℚ) :=
            le_trans (Int.le_ceil (t / s)) (by exact_mod_cast h1)
          exact hfloor (le_antisymm (Int.floor_le (t / s)) h2)
        · exact h
      simp [prepareBackground, hcond, hceil]
  · rcases le_or_lt t s with hle | hlt
    · rw [prepareBackground, if_pos hle, subclipDuration, min_eq_left hle]
    · have hcond : ¬ (s ≥ t) := not_le.mpr hlt
      have : subclipDuration (((⌊t / s⌋ : ℤ) + 1 : ℤ) * s : ℚ) t = t := by
        rw [subclipDuration, min_eq_left]
        calc t ≤ ((⌊t / s⌋ : ℚ) + 1) * s := hcover
          _ = (((⌊t / s⌋ : ℤ) + 1 : ℤ) : ℚ) * s := by push_cast; ring
      simp only [prepareBackground, hcond, if_false, if_true, ge_iff_le, if_neg hcond]
      simpa using this

/-- C2 witness: the amended statement at `source = 2`, `target = 5`. -/
theorem prepareBackground_spec_witness :
    (0 : ℚ) < 2 ∧ (0 : ℚ) < 5 ∧
    (((5 : ℚ) ≤ 2 → prepareBackground 2 5 true = (0, 5)) ∧
     ((2 : ℚ) < 5 →
       (prepareBackground 2 5 true).1 = ⌊(5 : ℚ) / 2⌋ + 1 ∧
       (¬ (∃ k : ℤ, (5 : ℚ) = (k : ℚ) * 2) → (prepareBackground 2 5 true).1 = ⌈(5 : ℚ) / 2⌉)) ∧
     (prepareBackground 2 5 true).2 = 5) :=
  ⟨by norm_num, by norm_num, prepareBackground_spec 2 5 (by norm_num) (by norm_num)⟩

/-! ## Claim theorems: karaoke schedule builder -/

/-- A segment holding the single degenerate word `("Hi.", 0.5, 0.5)`. -/
def degenerateSegment : CaptionSegment :=
  { words := [⟨"Hi.", 1/2, 1/2, 1⟩], start_time := 1/2, end_time := 1/2 }

/-- The two-word segment `[("Hello",0,0.5),("world.",0.5,1)]`. -/
def twoWordSegment : CaptionSegment :=
  { words := [⟨"Hello", 0, 1/2, 1⟩, ⟨"world.", 1/2, 1, 1⟩], start_time := 0, end_time := 1 }

/-- C5 counterexample: on a segment containing the single word
`("Hi.", 0.5, 0.5)` the builder emits one frame whose start and end
times are both `0.5` — a zero-duration frame, with no epsilon clamp
applied anywhere. -/
theorem karaoke_zero_duration_counterexample :
    createSimpleKaraoke defaultCaptionSettings 1080 degenerateSegment =
      [{ text := "\nHi.\n", color := "white", start_time := 1/2, end_time := 1/2 }] ∧
    ((1 / 2 : ℚ) - 1 / 2 ≤ 0) :=
  ⟨rfl, by norm_num⟩

/-- C5 amended: the builder never raises (it is total) and never drops a
frame — it emits exactly one frame per word, in order — but it applies
no clamping: each frame keeps the exact start and end times of its word, so a
word with `start_time = end_time` produces a frame of zero duration. -/
theorem karaoke_no_clamp (cfg : CaptionSettings) (width : ℕ) (seg : CaptionSegment) :
    (createSimpleKaraoke cfg width seg).length = seg.words.length ∧
    (∀ (i : ℕ) (w : WordTiming), seg.words[i]? = some w →
      (createSimpleKaraoke cfg width seg)[i]? =
        some ⟨paddedSegmentText cfg width seg, cfg.color, w.start_time, w.end_time⟩) ∧
    (∀ (i : ℕ) (w : WordTiming), seg.words[i]? = some w → w.start_time = w.end_time →
      ∀ f : KaraokeClip, (createSimpleKaraoke cfg width seg)[i]? = some f →
        f.end_time - f.start_time = 0) := by
  refine ⟨by simp [createSimpleKaraoke], ?_, ?_⟩
  · intro i w hw
    simp [createSimpleKaraoke, List.getElem?_map, hw]
  · intro i w hw hzero f hf
    simp only [createSimpleKaraoke, List.getElem?_map, hw, Option.map_some] at hf
    cases hf
    simpa using sub_eq_zero_of_eq hzero.symm

/-- C5 witness: the amended statement at the degenerate one-word
segment, with the zero-duration conclusion discharged at index 0. -/
theorem karaoke_no_clamp_witness :
    (createSimpleKaraoke defaultCaptionSettings 1080 degenerateSegment).length = 1 ∧
    ∀ f : KaraokeClip,
      (createSimpleKaraoke defaultCaptionSettings 1080 degenerateSegment)[0]? = some f →
        f.end_time - f.start_time = 0 :=
  ⟨(karaoke_no_clamp defaultCaptionSettings 1080 degenerateSegment).1,
   fun f hf =>
    (karaoke_no_clamp defaultCaptionSettings 1080 degenerateSegment).2.2 0
      ⟨"Hi.", 1/2, 1/2, 1⟩ rfl rfl f hf⟩

/-- C7 counterexample: on the segment `[("Hello",0,0.5),("world.",0.5,1)]`
both emitted frames carry the identical newline-padded text and the
identical base color: no frame displays exactly the full segment text
(`"Hello world."`) and no frame marks its own word as highlighted (the
highlight color is never used). -/
theorem karaoke_no_highlight_counterexample :
    createSimpleKaraoke defaultCaptionSettings 1080 twoWordSegment =
      [{ text := "\nHello world.\n", color := "white", start_time := 0, end_time := 1/2 },
       { text := "\nHello world.\n", color := "white", start_time := 1/2, end_time := 1 }] ∧
    twoWordSegment.text = "Hello world." ∧
    ("\nHello world.\n" ≠ "Hello world.") ∧
    defaultCaptionSettings.highlight_color = "yellow" ∧
    ("white" : String) ≠ "yellow" :=
  ⟨rfl, rfl, by decide, rfl, by decide⟩

/-- C7 amended: for a segment with `k` words the builder produces
exactly `k` frames in word order, frame `i` covering
`[w[i].start_time, w[i].end_time)`; every frame displays the same
newline-padded, line-wrapped rendering of the segment text in the base
caption color — no highlighted-word index is marked and the frames
differ only in timing. -/
theorem karaoke_frames_uniform (cfg : CaptionSettings) (width : ℕ) (seg : CaptionSegment) :
    (createSimpleKaraoke cfg width seg).length = seg.words.length ∧
    (∀ (i : ℕ) (w : WordTiming), seg.words[i]? = some w →
      (createSimpleKaraoke cfg width seg)[i]? =
        some ⟨paddedSegmentText cfg width seg, cfg.color, w.start_time, w.end_time⟩) ∧
    (∀ f ∈ createSimpleKaraoke cfg width seg,
      f.text = paddedSegmentText cfg width seg ∧ f.color = cfg.color) := by
  refine ⟨by simp [createSimpleKaraoke], ?_, ?_⟩
  · intro i w hw
    simp [createSimpleKaraoke, List.getElem?_map, hw]
  · intro f hf
    rcases List.mem_map.mp hf with ⟨w, _, rfl⟩
    exact ⟨rfl, rfl⟩

/-- C7 witness: the amended statement at the two-word example segment,
with the frame description discharged at index 0. -/
theorem karaoke_frames_uniform_witness :
    (createSimpleKaraoke defaultCaptionSettings 1080 twoWordSegment).length = 2 ∧
    (createSimpleKaraoke defaultCaptionSettings 1080 twoWordSegment)[0]? =
      some ⟨paddedSegmentText defaultCaptionSettings 1080 twoWordSegment,
            defaultCaptionSettings.color, 0, 1/2⟩ :=
  ⟨(karaoke_frames_uniform defaultCaptionSettings 1080 twoWordSegment).1,
   (karaoke_frames_uniform defaultCaptionSettings 1080 twoWordSegment).2.1 0
     ⟨"Hello", 0, 1/2, 1⟩ rfl⟩

/-! ## Claim theorems: LLM simplify fallback -/

/-- A concrete scraped story. -/
def exampleStory : RedditStory :=
  { id := "s1", subreddit := "AITA", title := "A title", body := "Original body text."
    author := "user", score := 100, url := "https://example/r", created_utc := "2025-01-01"
    num_comments := 3 }

theorem simplifyLoop_all_fail (story : RedditStory) :
    ∀ l : List (Except String String), l ≠ [] →
      (∀ o ∈ l, ∃ e, attemptOutcome o = .error e) →
      (simplifyLoop story l).simplified_text = story.body ∧
      (simplifyLoop story l).status = .simplified ∧
      (simplifyLoop story l).error_message.isSome = true := by
  intro l
  induction l with
  | nil => intro h; exact absurd rfl h
  | cons o rest ih =>
    intro _ hall
    obtain ⟨e, he⟩ := hall o (List.mem_cons_self o rest)
    cases rest with
    | nil => rw [simplifyLoop, he]; exact ⟨rfl, rfl, rfl⟩
    | cons o2 r2 =>
      rw [simplifyLoop, he]
      exact ih (by simp) (fun x hx => hall x (List.mem_cons_of_mem _ hx))

/-- C8: if the generate call fails (or yields an empty response) on
every attempt `0 .. max_retries`, `simplify_story` does not abort: it
returns the original body as the output text, with the non-failed
status `SIMPLIFIED` and a populated error note. -/
theorem simplify_story_fallback (story : RedditStory)
    (oracle : ℕ → Except String String) (maxRetries : ℕ)
    (h : ∀ i, i ≤ maxRetries → ∃ e, attemptOutcome (oracle i) = .error e) :
    (simplifyStory story oracle maxRetries).simplified_text = story.body ∧
    (simplifyStory story oracle maxRetries).status = .simplified ∧
    StoryStatus.simplified ≠ StoryStatus.failed ∧
    (simplifyStory story oracle maxRetries).error_message.isSome = true := by
  have hall : ∀ o ∈ (List.range (maxRetries + 1)).map oracle,
      ∃ e, attemptOutcome o = .error e := by
    intro o ho
    rcases List.mem_map.mp ho with ⟨i, hi, rfl⟩
    exact h i (by simpa [Nat.lt_succ_iff] using List.mem_range.mp hi)
  have hne : (List.range (maxRetries + 1)).map oracle ≠ [] := by simp
  have hmain := simplifyLoop_all_fail story _ hne hall
  exact ⟨hmain.1, hmain.2.1, by decide, hmain.2.2⟩

/-- C8 witness: every attempt raising `"boom"` on the example story with
the default two retries. -/
theorem simplify_story_fallback_witness :
    (∀ i : ℕ, i ≤ 2 →
      ∃ e, attemptOutcome ((fun _ => Except.error "boom") i) = .error e) ∧
    ((simplifyStory exampleStory (fun _ => .error "boom") 2).simplified_text =
        exampleStory.body ∧
      (simplifyStory exampleStory (fun _ => .error "boom") 2).status = .simplified ∧
      StoryStatus.simplified ≠ StoryStatus.failed ∧
      (simplifyStory exampleStory (fun _ => .error "boom") 2).error_message.isSome = true) :=
  ⟨fun _ _ => ⟨"boom", rfl⟩,
   simplify_story_fallback exampleStory (fun _ => .error "boom") 2 (fun _ _ => ⟨"boom", rfl⟩)⟩

/-! ## Claim theorems: pipeline orchestrator -/

/-- A transcript as the transcription collaborator would return it. -/
def exampleRunTranscript : Transcript :=
  { words := [⟨"Original", 0, 1/2, 1⟩, ⟨"body", 1/2, 1, 1⟩, ⟨"text.", 1, 3/2, 1⟩]
    duration := 3/2 }

/-- An environment in which every collaborator succeeds and story `"s1"`
exists — e.g. the state after a previous fully successful run of the
pipeline on `"s1"` (nothing the pipeline persists feeds back into any
collaborator, so a rerun sees this same environment). -/
def rerunEnv : PipelineEnv :=
  { stories := fun sid => if sid = "s1" then some exampleStory else none
    llmGenerate := fun _ => .ok "Simpler body text."
    ttsGenerate := fun _ _ => .ok ()
    transcribe := fun _ => .ok exampleRunTranscript
    getRandomVideo := some "data/videos/bg.mp4"
    downloadRandom := []
    render := .ok () }

/-- C3 counterexample: running the orchestrator on story `"s1"` in an
environment representing a story already fully processed makes four
external collaborator calls — `process_story` has no artifact-store
lookup, so a re-run repeats every stage instead of making no new
external calls. -/
theorem processStory_rerun_counterexample :
    processStory rerunEnv "s1" =
      (some "data/output/s1.mp4", ["simplify", "tts", "transcribe", "render"]) ∧
    (["simplify", "tts", "transcribe", "render"] : List String) ≠ [] :=
  ⟨rfl, by decide⟩

/-- C3 amended: every run of `process_story` on an existing story —
first run or re-run alike — executes the stages unconditionally and
makes at least one external collaborator call; there is no done-record
check and no force-rerun flag.  Any produced output locator is the
deterministic `output_dir/story_id.mp4`, which is why a re-run returns
the same locator as the stored one despite recomputing everything. -/
theorem processStory_always_reexecutes (env : PipelineEnv) (storyId : String)
    (story : RedditStory) (hstory : env.stories storyId = some story) :
    (processStory env storyId).2 ≠ [] ∧
    (∀ out, (processStory env storyId).1 = some out → out = outputPath storyId) := by
  unfold processStory
  rw [hstory]
  rcases htts : env.ttsGenerate (simplifyStory story env.llmGenerate 2).simplified_text
      ("data/audio/" ++ storyId ++ ".mp3") with e | u
  · simp [htts]
  rcases htr : env.transcribe ("data/audio/" ++ storyId ++ ".mp3") with e | tr
  · simp [htts, htr]
  rcases hbg : env.getRandomVideo with _ | bg
  · rcases hdl : env.downloadRandom with _ | ⟨v, vs⟩
    · simp [htts, htr, hbg, hdl]
    · rcases hr : env.render with e | u2
      · simp [htts, htr, hbg, hdl, hr]
      · refine ⟨by simp [htts, htr, hbg, hdl, hr], ?_⟩
        intro out hout
        simp [htts, htr, hbg, hdl, hr] at hout
        exact hout.symm
  · rcases hr : env.render with e | u2
    · simp [htts, htr, hbg, hr]
    · refine ⟨by simp [htts, htr, hbg, hr], ?_⟩
      intro out hout
      simp [htts, htr, hbg, hr] at hout
      exact hout.symm

/-- C3 witness: the amended statement at the all-success environment. -/
theorem processStory_always_reexecutes_witness :
    rerunEnv.stories "s1" = some exampleStory ∧
    ((processStory rerunEnv "s1").2 ≠ [] ∧
      (∀ out, (processStory rerunEnv "s1").1 = some out → out = outputPath "s1")) :=
  ⟨rfl, processStory_always_reexecutes rerunEnv "s1" exampleStory rfl⟩

/-! ## Claim theorems: SRT export -/

theorem qmod_nonneg (a b : ℚ) (hb : 0 < b) : 0 ≤ qmod a b := by
  rw [qmod, sub_nonneg]
  calc (b : ℚ) * ⌊a / b⌋ ≤ b * (a / b) :=
        mul_le_mul_of_nonneg_left (Int.floor_le _) hb.le
    _ = a := by field_simp

theorem qmod_lt (a b : ℚ) (hb : 0 < b) : qmod a b < b := by
  rw [qmod, sub_lt_iff_lt_add]
  calc a = b * (a / b) := by field_simp
    _ < b * ((⌊a / b⌋ : ℚ) + 1) :=
        mul_lt_mul_of_pos_left (Int.lt_floor_add_one (a / b)) hb
    _ = b + b * ⌊a / b⌋ := by ring

theorem srt_components (q : ℚ) :
    srtMinutes q = ⌊q / 60⌋ - 60 * ⌊q / 3600⌋ ∧
    srtSecs q = ⌊q⌋ - 60 * ⌊q / 60⌋ ∧
    srtMillis q = ⌊1000 * q⌋ - 1000 * ⌊q⌋ := by
  refine ⟨?_, ?_, ?_⟩
  · rw [srtMinutes, qmod]
    have h : (q - 3600 * ⌊q / 3600⌋) / 60 = q / 60 - ((60 * ⌊q / 3600⌋ : ℤ) : ℚ) := by
      push_cast; ring
    rw [h, Int.floor_sub_int]
  · rw [srtSecs, qmod]
    have h : q - 60 * ⌊q / 60⌋ = q - ((60 * ⌊q / 60⌋ : ℤ) : ℚ) := by push_cast; ring
    rw [h, Int.floor_sub_int]
  · rw [srtMillis, qmod]
    have h : (q - 1 * ⌊q / 1⌋) * 1000 = 1000 * q - ((1000 * ⌊q⌋ : ℤ) : ℚ) := by
      rw [div_one]; push_cast; ring
    rw [h, Int.floor_sub_int]

theorem srtRecover_eq (q : ℚ) : srtRecover q = (⌊1000 * q⌋ : ℚ) / 1000 := by
  obtain ⟨hm, hs, hms⟩ := srt_components q
  rw [srtRecover, srtHours, hm, hs, hms]
  push_cast
  ring

theorem flatMap_srtBlock_drop (segs : List CaptionSegment) :
    ∀ (i0 k : ℕ), ((segs.enumFrom i0).flatMap srtBlock).drop (4 * k) =
      ((segs.drop k).enumFrom (i0 + k)).flatMap srtBlock := by
  induction segs with
  | nil => intro i0 k; simp
  | cons sg rest ih =>
    intro i0 k
    cases k with
    | zero => simp
    | succ j =>
      have h4 : 4 * (j + 1) = (srtBlock (i0, sg)).length + 4 * j := by
        simp [srtBlock]; ring
      rw [List.enumFrom_cons, List.flatMap_cons, h4, List.drop_append]
      rw [ih (i0 + 1) j]
      rw [List.drop_succ_cons]
      have harith : i0 + 1 + j = i0 + (j + 1) := by omega
      rw [harith]

theorem flatMap_srtBlock_length (segs : List CaptionSegment) :
    ∀ i0 : ℕ, ((segs.enumFrom i0).flatMap srtBlock).length = 4 * segs.length := by
  induction segs with
  | nil => intro i0; simp
  | cons sg rest ih =>
    intro i0
    rw [List.enumFrom_cons, List.flatMap_cons, List.length_append, ih (i0 + 1)]
    simp [srtBlock]
    ring

/-- C9: the SRT export has one four-line block per fixed-size caption
segment — the sequential 1-based index, the `start --> end` line built
from `HH:MM:SS,mmm` timestamps, the segment text, and a blank separator
— and re-reading the four formatted timestamp components as
`h*3600 + m*60 + s + ms/1000` recovers the formatted time to strictly
better than millisecond error (the formatted value is `floor(1000*q)/1000`);
the minute, second, and millisecond components always lie in canonical
ranges.  The export string itself is the newline join of these lines. -/
theorem to_srt_blocks_and_roundtrip (t : Transcript) :
    t.to_srt = "\n".intercalate (toSrtLines t) ∧
    (toSrtLines t).length = 4 * (t.get_segments).length ∧
    (∀ (k : ℕ) (s : CaptionSegment), (t.get_segments)[k]? = some s →
      ((toSrtLines t).drop (4 * k)).take 4 =
        [toString (k + 1),
         formatSrtTime s.start_time ++ " --> " ++ formatSrtTime s.end_time,
         s.text, ""]) ∧
    (∀ q : ℚ, srtRecover q = (⌊1000 * q⌋ : ℚ) / 1000 ∧
      srtRecover q ≤ q ∧ q - srtRecover q < 1 / 1000 ∧
      formatSrtTime q =
        zeroPadInt 2 (srtHours q) ++ ":" ++ zeroPadInt 2 (srtMinutes q) ++ ":" ++
          zeroPadInt 2 (srtSecs q) ++ "," ++ zeroPadInt 3 (srtMillis q) ∧
      0 ≤ srtMinutes q ∧ srtMinutes q < 60 ∧
      0 ≤ srtSecs q ∧ srtSecs q < 60 ∧
      0 ≤ srtMillis q ∧ srtMillis q < 1000) := by
  refine ⟨rfl, flatMap_srtBlock_length (t.get_segments) 1, ?_, ?_⟩
  · intro k s hk
    have hlt : k < (t.get_segments).length := by
      by_contra hge
      rw [List.getElem?_eq_none (by omega)] at hk
      exact Option.noConfusion hk
    rw [toSrtLines, flatMap_srtBlock_drop (t.get_segments) 1 k]
    rw [List.drop_eq_getElem_cons hlt]
    have hks : (t.get_segments)[k] = s := by
      have := List.getElem?_eq_getElem hlt
      rw [this] at hk
      exact Option.some_inj.mp hk
    rw [hks, List.enumFrom_cons, List.flatMap_cons]
    rw [show (1 + k) = (k + 1) by omega]
    calc (srtBlock (k + 1, s) ++
            ((((t.get_segments).drop (k + 1)).enumFrom (k + 1 + 1)).flatMap srtBlock)).take 4
        = (srtBlock (k + 1, s) ++
            ((((t.get_segments).drop (k + 1)).enumFrom (k + 1 + 1)).flatMap srtBlock)).take
            (srtBlock (k + 1, s)).length := rfl
      _ = srtBlock (k + 1, s) := List.take_left _ _
      _ = [toString (k + 1),
           formatSrtTime s.start_time ++ " --> " ++ formatSrtTime s.end_time,
           s.text, ""] := rfl
  · intro q
    obtain ⟨hm, hs, hms⟩ := srt_components q
    have hrec := srtRecover_eq q
    refine ⟨hrec, ?_, ?_, rfl, ?_, ?_, ?_, ?_, ?_, ?_⟩
    · rw [hrec, div_le_iff (by norm_num : (0:ℚ) < 1000)]
      calc ((⌊1000 * q⌋ : ℤ) : ℚ) ≤ 1000 * q := Int.floor_le _
        _ = q * 1000 := by ring
    · rw [hrec, sub_lt_iff_lt_add]
      have h1 : 1000 * q < (⌊1000 * q⌋ : ℚ) + 1 := Int.lt_floor_add_one _
      rw [show (1 : ℚ) / 1000 + (⌊1000 * q⌋ : ℚ) / 1000 = ((⌊1000 * q⌋ : ℚ) + 1) / 1000 by
        ring]
      rw [lt_div_iff (by norm_num : (0:ℚ) < 1000)]
      calc q * 1000 = 1000 * q := by ring
        _ < (⌊1000 * q⌋ : ℚ) + 1 := h1
    · rw [srtMinutes]
      exact Int.floor_nonneg.mpr (div_nonneg (qmod_nonneg q 3600 (by norm_num)) (by norm_num))
    · rw [srtMinutes]
      apply Int.floor_lt.mpr
      rw [div_lt_iff (by norm_num : (0:ℚ) < 60)]
      calc qmod q 3600 < 3600 := qmod_lt q 3600 (by norm_num)
        _ = ((60 : ℤ) : ℚ) * 60 := by norm_num
    · rw [srtSecs]
      exact Int.floor_nonneg.mpr (qmod_nonneg q 60 (by norm_num))
    · rw [srtSecs]
      apply Int.floor_lt.mpr
      calc qmod q 60 < 60 := qmod_lt q 60 (by norm_num)
        _ = ((60 : ℤ) : ℚ) := by norm_num
    · rw [srtMillis]
      exact Int.floor_nonneg.mpr
        (mul_nonneg (qmod_nonneg q 1 (by norm_num)) (by norm_num))
    · rw [srtMillis]
      apply Int.floor_lt.mpr
      calc qmod q 1 * 1000 < 1 * 1000 :=
            mul_lt_mul_of_pos_right (qmod_lt q 1 (by norm_num)) (by norm_num)
        _ = ((1000 : ℤ) : ℚ) := by norm_num

/-- C9 witness: the block description discharged at the example
transcript, whose three words form one fixed-size segment, and the
recovery bound discharged at `q = 13/10`. -/
theorem to_srt_blocks_and_roundtrip_witness :
    ((exampleTranscript.get_segments)[0]? =
      some { words := [⟨"Hello", 0, 1/2, 1⟩, ⟨"world.", 1/2, 1, 1⟩, ⟨"Bye.", 1, 13/10, 1⟩]
             start_time := 0, end_time := 13/10 }) ∧
    (((toSrtLines exampleTranscript).drop (4 * 0)).take 4 =
      [toString (0 + 1),
       formatSrtTime (0 : ℚ) ++ " --> " ++ formatSrtTime (13/10 : ℚ),
       CaptionSegment.text { words := [⟨"Hello", 0, 1/2, 1⟩, ⟨"world.", 1/2, 1, 1⟩,
                                       ⟨"Bye.", 1, 13/10, 1⟩]
                             start_time := 0, end_time := 13/10 }, ""]) ∧
    srtRecover (13/10 : ℚ) ≤ 13/10 ∧ (13/10 : ℚ) - srtRecover (13/10) < 1 / 1000 := by
  have hseg : (exampleTranscript.get_segments)[0]? =
      some { words := [⟨"Hello", 0, 1/2, 1⟩, ⟨"world.", 1/2, 1, 1⟩, ⟨"Bye.", 1, 13/10, 1⟩]
             start_time := 0, end_time := 13/10 } := by
    rw [Transcript.get_segments]
    rw [show exampleTranscript.words =
      [⟨"Hello", 0, 1/2, 1⟩, ⟨"world.", 1/2, 1, 1⟩, ⟨"Bye.", 1, 13/10, 1⟩] from rfl]
    rw [groupFixed_cons]
    simp only [List.take, List.drop, groupFixed_nil, List.map_cons, List.map_nil]
    rw [List.getElem?_cons_zero]
    rfl
  have hth := to_srt_blocks_and_roundtrip exampleTranscript
  have h1 := hth.2.2.1 0 _ hseg
  have h2 := (hth.2.2.2 (13/10)).2.1
  have h3 := (hth.2.2.2 (13/10)).2.2.1
  exact ⟨hseg, h1, h2, h3⟩

end Sloppenhimer
